import Mathlib

/-!
# Union data layer: shallow embedding

A Lean model of the Union chat platform's data/service layer
(account registry, server membership, invites, authentication).
Database tables are modelled as lists of records; the RethinkDB
primitives `get`, `filter`, `insert`, `update`, `append`,
`difference` become the corresponding list operations.  External
collaborators (bcrypt's `hash`/`compare`, base64 decoding, the
random number source, the shortid generator) are parameters, since
they are libraries outside the code being modelled.  `Math.random`
draws are a list of naturals (each in 1..9999, matching
`Math.floor(Math.random() * 9999 + 1)`); a loop that consumes all
provided draws without finishing yields `none`, representing a
computation that is still running.
-/

/-- An account record in the `users` table (fields of `createUser`
plus the optional `avatarUrl`/`admin` that `updateUser` may set). -/
structure Account where
  id : String
  username : String
  discriminator : String
  password : String
  servers : List Nat
  online : Bool
  avatarUrl : Option String := none
  admin : Option Bool := none
  deriving Repr, DecidableEq

/-- A server record in the `servers` table. -/
structure Server where
  id : Nat
  name : String
  iconUrl : Option String
  owner : String
  deriving Repr, DecidableEq

/-- An invite record in the `invites` table (`id` is the code). -/
structure Invite where
  id : String
  serverId : Nat
  inviter : String
  deriving Repr, DecidableEq

/-- The database state: the tables the modelled operations touch. -/
structure DB where
  users : List Account
  servers : List Server
  invites : List Invite
  deriving Repr, DecidableEq

/-- JS falsiness of a possibly-undefined string: `undefined` (here
`none`) and the empty string are falsy. -/
def jsFalsy : Option String → Bool
  | none => true
  | some s => s == ""

/-- Helper for `jsSplit`: walks the character list, cutting at each
separator; `acc` holds the current chunk reversed. -/
def jsSplitAux (sep : Char) : List Char → List Char → List String
  | [], acc => [String.mk acc.reverse]
  | c :: cs, acc =>
    if c = sep then String.mk acc.reverse :: jsSplitAux sep cs []
    else jsSplitAux sep cs (c :: acc)

/-- JavaScript's `String.prototype.split` with a single-character
separator: splits at every occurrence, keeps empty chunks, and
returns `[""]` on the empty string (the only uses in the source are
`split(' ')`, `split(':')` and `split('#')`). -/
def jsSplit (s : String) (sep : Char) : List String :=
  jsSplitAux sep s.data []

/-- `authenticate(auth)` from the source, with bcrypt's `compare`
abstracted as `verify` and Node's base64 `Buffer` decoding as
`decode` (both external libraries).  Mirrors the source exactly:
`auth.split(' ')` destructured into scheme and credentials, the
decoded credentials split on every `':'` and destructured into
username and password, the username split on every `'#'` and
destructured into name and discriminator, then a lookup of the
first account matching `{username: name, discriminator}` and a
password check. -/
def authenticate (decode : String → String) (verify : String → String → Bool)
    (users : List Account) (auth : String) : Option Account :=
  if auth = "" then none
  else
    let parts := jsSplit auth ' '
    let type := parts.headD ""
    let creds := parts[1]?
    if type ≠ "Basic" ∨ jsFalsy creds = true then none
    else
      let decoded := decode (creds.getD "")
      let credParts := jsSplit decoded ':'
      let username := credParts.headD ""
      let password := credParts[1]?
      let nameParts := if username ≠ "" then jsSplit username '#' else []
      let name := nameParts.headD ""
      let discriminator := nameParts[1]?
      if username = "" ∨ jsFalsy password = true ∨ name = "" ∨ jsFalsy discriminator = true then none
      else
        match users.find? (fun u => u.username == name && u.discriminator == discriminator.getD "") with
        | none => none
        | some user => if verify (password.getD "") user.password then some user else none

/-- `users.filter({username, discriminator}).count().gt(0)`: whether
some stored account already holds this (username, discriminator)
pair. -/
def taken (users : List Account) (username discriminator : String) : Bool :=
  decide (0 < (users.filter (fun u => u.username == username && u.discriminator == discriminator)).length)

/-- JavaScript's `String.prototype.padStart(n, c)`. -/
def padStart (s : String) (n : Nat) (c : Char) : String :=
  if n ≤ s.length then s else String.mk (List.replicate (n - s.length) c) ++ s

/-- `Math.floor(Math.random() * 9999 + 1).toString().padStart(4, '0')`
applied to one random draw `d` (the draw itself ranges over 1..9999). -/
def discrimOf (d : Nat) : String :=
  padStart (toString d) 4 '0'

/-- `rollDiscriminator(username)`: the `while (true)` retry loop,
driven by the list of `Math.random` draws.  Returns `none` when every
provided draw was already taken, i.e. the loop is still running after
consuming the modelled randomness. -/
def rollDiscriminator (users : List Account) (username : String) : List Nat → Option String
  | [] => none
  | d :: rest =>
    let discriminator := discrimOf d
    if taken users username discriminator then rollDiscriminator users username rest
    else some discriminator

/-- `createUser(username, password)`: id generation and bcrypt's
`hash` are external, so the fresh id and the hash function are
arguments.  The outer `Option` is the divergence marker inherited
from `rollDiscriminator`; within it, `Except` carries the
`'Cannot generate unique discrim'` throw, which fires only if the
roll returned a falsy string. -/
def createUser (hash : String → String) (db : DB) (id username password : String)
    (draws : List Nat) : Option (Except String (DB × String)) :=
  match rollDiscriminator db.users username draws with
  | none => none
  | some discriminator =>
    if discriminator == "" then
      some (Except.error "Cannot generate unique discrim. Try a different username.")
    else
      some (Except.ok
        ({ db with users := db.users ++
            [{ id := id, username := username, discriminator := discriminator,
               password := hash password, servers := [], online := false }] },
         username ++ "#" ++ discriminator))

/-- The update object built by `updateUser` and applied to the
user's row: always `{ username, discriminator }`, plus `password`
when the argument is JS-truthy (the `if (password)` guard treats
undefined, null and `""` as falsy), plus `avatarUrl` when not
`undefined` (`none` = omitted, `some none` = explicit null, which
unsets it), plus `admin` when strictly `true` or `false`. -/
def applyUserUpdate (hash : String → String) (username discriminator : String)
    (password : Option String) (avatarUrl : Option (Option String)) (admin : Option Bool)
    (u : Account) : Account :=
  let u := { u with username := username, discriminator := discriminator }
  let u := match password with
    | some p => if p != "" then { u with password := hash p } else u
    | none => u
  let u := match avatarUrl with
    | some a => { u with avatarUrl := a }
    | none => u
  match admin with
  | some b => { u with admin := some b }
  | none => u

/-- `updateUser(id, username, password, avatarUrl, admin)`:
re-rolls a discriminator for `username`, builds the partial update
object (see `applyUserUpdate`), applies it to the row with the given
id (RethinkDB's `get(id).update(...)` silently no-ops on a missing
row, modelled by the conditional map) and returns the new Uniontag.
`none` is the divergence marker inherited from
`rollDiscriminator`. -/
def updateUser (hash : String → String) (db : DB) (id username : String)
    (password : Option String) (avatarUrl : Option (Option String)) (admin : Option Bool)
    (draws : List Nat) : Option (DB × String) :=
  match rollDiscriminator db.users username draws with
  | none => none
  | some discriminator =>
    some ({ db with users := db.users.map (fun u =>
              if u.id == id then
                applyUserUpdate hash username discriminator password avatarUrl admin u
              else u) },
          username ++ "#" ++ discriminator)

/-- A member as returned by `.without(['servers', 'password'])`. -/
structure Member where
  id : String
  username : String
  discriminator : String
  online : Bool
  avatarUrl : Option String
  admin : Option Bool
  deriving Repr, DecidableEq

/-- Drop the private `password` and `servers` fields. -/
def withoutPrivate (u : Account) : Member :=
  { id := u.id, username := u.username, discriminator := u.discriminator,
    online := u.online, avatarUrl := u.avatarUrl, admin := u.admin }

/-- A server merged with its expanded member list, as produced by
`getServer`'s `merge`. -/
structure JoinedServer where
  id : Nat
  name : String
  iconUrl : Option String
  owner : String
  members : List Member
  deriving Repr, DecidableEq

/-- `getServer(serverId)`: the server row merged with the accounts
whose `servers` set contains its id, private fields stripped. -/
def getServer (db : DB) (serverId : Nat) : Option JoinedServer :=
  (db.servers.find? (fun s => s.id == serverId)).map (fun s =>
    { id := s.id, name := s.name, iconUrl := s.iconUrl, owner := s.owner,
      members := (db.users.filter (fun u => u.servers.contains s.id)).map withoutPrivate })

/-- `addMemberToServer(username, id)` (the first argument is in fact
the user's primary key): no-op when the user or server row is
missing or the user's `servers` set already contains the id,
otherwise `servers.append(id)` on the user's row. -/
def addMemberToServer (db : DB) (userId : String) (id : Nat) : DB :=
  match db.users.find? (fun u => u.id == userId), db.servers.find? (fun s => s.id == id) with
  | some user, some _ =>
    if user.servers.contains id then db
    else { db with users := db.users.map (fun u =>
            if u.id == userId then { u with servers := u.servers ++ [id] } else u) }
  | _, _ => db

/-- `r.table('servers').max('id')`, with the try/catch that turns the
empty-table error into `largestId = 0`. -/
def maxServerId (servers : List Server) : Nat :=
  servers.foldl (fun m s => max m s.id) 0

/-- `createServer(name, iconUrl, owner)`: allocates max id + 1,
inserts the row, joins the owner, returns `getServer(id)`. -/
def createServer (db : DB) (name : String) (iconUrl : Option String) (owner : String) :
    DB × Option JoinedServer :=
  let largestId := maxServerId db.servers
  let id := largestId + 1
  let server : Server := { id := id, name := name, iconUrl := iconUrl, owner := owner }
  let db1 := { db with servers := db.servers ++ [server] }
  let db2 := addMemberToServer db1 owner id
  (db2, getServer db2 id)

/-- `deleteServer(serverId)`: drop the server row, drop every invite
whose `serverId` matches, then `difference([serverId])` on the
`servers` set of every user containing it. -/
def deleteServer (db : DB) (serverId : Nat) : DB :=
  let db := { db with servers := db.servers.filter (fun s => s.id != serverId) }
  let db := { db with invites := db.invites.filter (fun inv => inv.serverId != serverId) }
  { db with users := db.users.map (fun u =>
      if u.servers.contains serverId then
        { u with servers := u.servers.filter (fun m => m != serverId) }
      else u) }

/-- `generateInvite(serverId, inviter)`: the shortid generator is
external, so the fresh code is an argument; the mapping is stored
and the code returned. -/
def generateInvite (db : DB) (code : String) (serverId : Nat) (inviter : String) :
    DB × String :=
  ({ db with invites := db.invites ++ [{ id := code, serverId := serverId, inviter := inviter }] },
   code)

/-- `getInvite(code)`: primary-key lookup in the `invites` table. -/
def getInvite (db : DB) (code : String) : Option Invite :=
  db.invites.find? (fun inv => inv.id == code)

/-- The scheme component of an authentication header: the chunk
before the first space (`type` in the source's destructuring). -/
def headerScheme (auth : String) : String := (jsSplit auth ' ').headD ""

/-- The payload component of an authentication header: the chunk
between the first and second spaces, if any (`creds` in the
source's destructuring; `none` models `undefined`). -/
def headerPayload (auth : String) : Option String := (jsSplit auth ' ')[1]?

/-- The `username` component of a decoded credentials payload: the
chunk before the first `':'`. -/
def credsUsername (decoded : String) : String := (jsSplit decoded ':').headD ""

/-- The `password` component of a decoded credentials payload: the
chunk between the first and second `':'`, if any. -/
def credsPassword (decoded : String) : Option String := (jsSplit decoded ':')[1]?

/-- The `'#'`-split of the username component, with the source's
truthiness guard (`username ? username.split('#') : []`). -/
def credsNameParts (decoded : String) : List String :=
  if credsUsername decoded ≠ "" then jsSplit (credsUsername decoded) '#' else []

/-- The `name` component of the username: the chunk before the first
`'#'`. -/
def credsName (decoded : String) : String :=
  (credsNameParts decoded).headD ""

/-- The `discriminator` component of the username: the chunk between
the first and second `'#'`, if any. -/
def credsDisc (decoded : String) : Option String :=
  (credsNameParts decoded)[1]?

/-- A sample account used by the concrete instances below. -/
def demoAccount : Account :=
  { id := "1", username := "alice", discriminator := "0001",
    password := "secret", servers := [], online := false }

/-- Plaintext-equality stand-in for bcrypt's `compare`, for concrete
instances. -/
def eqVerify (p h : String) : Bool := p == h

/-- An account whose stored password contains a colon. -/
def colonAccount : Account :=
  { id := "1", username := "alice", discriminator := "0001",
    password := "pa:ss", servers := [], online := false }

/-- A one-user, one-server database for concrete instances. -/
def demoDB : DB :=
  { users := [demoAccount],
    servers := [{ id := 1, name := "Guild", iconUrl := none, owner := "1" }],
    invites := [] }

/-- The account occupying discriminator `i + 1` in the saturated
table. -/
def fullUserAt (i : Nat) : Account :=
  { id := toString i, username := "alice", discriminator := discrimOf (i + 1),
    password := "h", servers := [], online := false }

/-- A users table holding every discriminator 0001..9999 for the
username `"alice"`. -/
def fullUsers : List Account :=
  (List.range 9999).map fullUserAt

/-- A database whose users table is saturated for `"alice"`. -/
def fullDB : DB :=
  { users := fullUsers, servers := [], invites := [] }

/-- `authenticate` rewritten as a cascade over the header/payload
projection functions (definitionally equal to the source
definition). -/
theorem authenticate_unfold (decode : String → String) (verify : String → String → Bool)
    (users : List Account) (auth : String) :
    authenticate decode verify users auth =
      if auth = "" then none
      else if headerScheme auth ≠ "Basic" ∨ jsFalsy (headerPayload auth) = true then none
      else
        let decoded := decode ((headerPayload auth).getD "")
        if credsUsername decoded = "" ∨ jsFalsy (credsPassword decoded) = true
            ∨ credsName decoded = "" ∨ jsFalsy (credsDisc decoded) = true then none
        else
          match users.find? (fun u =>
              u.username == credsName decoded
                && u.discriminator == (credsDisc decoded).getD "") with
          | none => none
          | some user =>
            if verify ((credsPassword decoded).getD "") user.password then some user
            else none := by
  rfl

/-- **C1**: for every input header, `authenticate` never throws (it
is a total function into `Option`): it returns `none` when the
header is empty, the scheme is not `"Basic"`, the base64 payload is
missing (or empty, which the code treats the same), or the decoded
payload lacks a name, a discriminator, or a password; otherwise it
looks up the account by the exact (name, discriminator) pair,
returns `none` if no such account exists, and, when one does,
returns it exactly when the password verifies against the stored
hash. -/
theorem authenticate_correct (decode : String → String) (verify : String → String → Bool)
    (users : List Account) (auth : String) :
    (auth = "" → authenticate decode verify users auth = none)
    ∧ (headerScheme auth ≠ "Basic" → authenticate decode verify users auth = none)
    ∧ (jsFalsy (headerPayload auth) = true → authenticate decode verify users auth = none)
    ∧ (∀ creds, headerPayload auth = some creds →
        (credsUsername (decode creds) = "" ∨ jsFalsy (credsPassword (decode creds)) = true
          ∨ credsName (decode creds) = "" ∨ jsFalsy (credsDisc (decode creds)) = true) →
        authenticate decode verify users auth = none)
    ∧ (∀ creds name disc password, headerScheme auth = "Basic" →
        headerPayload auth = some creds → creds ≠ "" →
        credsName (decode creds) = name → name ≠ "" →
        credsDisc (decode creds) = some disc → disc ≠ "" →
        credsPassword (decode creds) = some password → password ≠ "" →
        authenticate decode verify users auth =
          match users.find? (fun u => u.username == name && u.discriminator == disc) with
          | none => none
          | some user => if verify password user.password then some user else none) := by
  refine ⟨?_, ?_, ?_, ?_, ?_⟩
  · intro h
    simp [authenticate_unfold, h]
  · intro h
    by_cases h0 : auth = "" <;> simp [authenticate_unfold, h0, h]
  · intro h
    by_cases h0 : auth = "" <;> simp [authenticate_unfold, h0, h]
  · intro creds hc hor
    by_cases h0 : auth = ""
    · simp [authenticate_unfold, h0]
    · by_cases h1 : headerScheme auth ≠ "Basic" ∨ jsFalsy (headerPayload auth) = true
      · rcases h1 with h1 | h1 <;> simp [authenticate_unfold, h0, h1]
      · rcases hor with h | h | h | h <;> simp [authenticate_unfold, h0, h1, hc, h]
  · intro creds name disc password hScheme hPayload hCreds hName hNameNe hDisc hDiscNe hPw hPwNe
    have h0 : auth ≠ "" := by
      intro h
      rw [h] at hScheme
      exact absurd hScheme (by decide)
    have h1 : ¬ (headerScheme auth ≠ "Basic" ∨ jsFalsy (headerPayload auth) = true) := by
      simp [hScheme, hPayload, jsFalsy, hCreds]
    have hu : credsUsername (decode creds) ≠ "" := by
      intro hu
      apply hNameNe
      rw [← hName]
      simp [credsName, credsNameParts, hu]
    have h2 : ¬ (credsUsername (decode creds) = ""
        ∨ jsFalsy (credsPassword (decode creds)) = true
        ∨ credsName (decode creds) = "" ∨ jsFalsy (credsDisc (decode creds)) = true) := by
      simp [hu, hPw, hName, hDisc, jsFalsy, hPwNe, hNameNe, hDiscNe]
    rw [authenticate_unfold, if_neg h0, if_neg h1]
    simp only [hPayload, Option.getD_some, if_neg h2, hName, hDisc, hPw]
    have h3 : ¬ (credsUsername (decode creds) = "" ∨ jsFalsy (some password) = true
        ∨ name = "" ∨ jsFalsy (some disc) = true) := by
      simp [hu, jsFalsy, hPwNe, hNameNe, hDiscNe]
    rw [if_neg h3]

/-- `taken` holds exactly when some stored account carries the
(username, discriminator) pair. -/
theorem taken_eq_true_iff (users : List Account) (username s : String) :
    taken users username s = true
      ↔ ∃ u ∈ users, u.username = username ∧ u.discriminator = s := by
  unfold taken
  rw [decide_eq_true_eq, ← List.countP_eq_length_filter, List.countP_pos_iff]
  constructor
  · rintro ⟨u, hu, hb⟩
    simp only [Bool.and_eq_true, beq_iff_eq] at hb
    exact ⟨u, hu, hb⟩
  · rintro ⟨u, hu, h1, h2⟩
    exact ⟨u, hu, by simp [h1, h2]⟩

/-- The padded decimal representation of any draw below 10000 has
exactly four characters. -/
theorem discrimOf_length (d : Nat) (h : d < 10000) : (discrimOf d).length = 4 := by
  have hrep : (toString d).length ≤ 4 := Nat.repr_length d 4 (by norm_num) h
  unfold discrimOf padStart
  by_cases h4 : 4 ≤ (toString d).length
  · rw [if_pos h4]
    omega
  · rw [if_neg h4]
    rw [String.length_append]
    have : (String.mk (List.replicate (4 - (toString d).length) '0')).length
        = 4 - (toString d).length := by
      show (List.replicate (4 - (toString d).length) '0').length = _
      rw [List.length_replicate]
    omega

/-- Whenever the retry loop finishes, its result is the padded form
of one of the draws and is not yet taken. -/
theorem rollDiscriminator_some (users : List Account) (username : String) :
    ∀ draws s, rollDiscriminator users username draws = some s →
      (∃ d ∈ draws, s = discrimOf d) ∧ taken users username s = false := by
  intro draws
  induction draws with
  | nil => intro s h; cases h
  | cons d rest ih =>
    intro s h
    rw [rollDiscriminator] at h
    by_cases ht : taken users username (discrimOf d) = true
    · rw [if_pos ht] at h
      obtain ⟨⟨d', hd', hs⟩, hfree⟩ := ih s h
      exact ⟨⟨d', List.mem_cons_of_mem d hd', hs⟩, hfree⟩
    · rw [if_neg ht] at h
      cases h
      exact ⟨⟨d, List.mem_cons_self d rest, rfl⟩, Bool.not_eq_true _ ▸ ht⟩

/-- If some provided draw is still free, the retry loop finishes. -/
theorem rollDiscriminator_some_of_free (users : List Account) (username : String) :
    ∀ draws, (∃ d ∈ draws, taken users username (discrimOf d) = false) →
      ∃ s, rollDiscriminator users username draws = some s := by
  intro draws
  induction draws with
  | nil => rintro ⟨d, hd, _⟩; cases hd
  | cons d rest ih =>
    rintro ⟨d', hd', hfree⟩
    rw [rollDiscriminator]
    by_cases ht : taken users username (discrimOf d) = true
    · rw [if_pos ht]
      apply ih
      rcases List.mem_cons.mp hd' with h | h
      · rw [h] at hfree
        rw [hfree] at ht
        cases ht
      · exact ⟨d', h, hfree⟩
    · rw [if_neg ht]
      exact ⟨discrimOf d, rfl⟩

/-- **C3**: whenever the discriminator resolver returns (and each
`Math.random` draw lies in 1..9999 as the source guarantees), the
result is a 4-character zero-padded decimal string representing a
value between 1 and 9999, and no existing account with the same
username already holds it; moreover the loop does return as soon as
the random stream contains any draw whose padded form is unused. -/
theorem rollDiscriminator_spec (users : List Account) (username : String) (draws : List Nat)
    (hdraws : ∀ d ∈ draws, 1 ≤ d ∧ d ≤ 9999) :
    (∀ s, rollDiscriminator users username draws = some s →
        s.length = 4
        ∧ (∃ d, 1 ≤ d ∧ d ≤ 9999 ∧ s = discrimOf d)
        ∧ taken users username s = false
        ∧ ∀ u ∈ users, u.username = username → u.discriminator ≠ s)
    ∧ ((∃ d ∈ draws, taken users username (discrimOf d) = false) →
        ∃ s, rollDiscriminator users username draws = some s) := by
  constructor
  · intro s h
    obtain ⟨⟨d, hd, hs⟩, hfree⟩ := rollDiscriminator_some users username draws s h
    obtain ⟨h1, h2⟩ := hdraws d hd
    refine ⟨?_, ⟨d, h1, h2, hs⟩, hfree, ?_⟩
    · rw [hs]
      exact discrimOf_length d (by omega)
    · intro u hu huname hdisc
      have : taken users username s = true :=
        (taken_eq_true_iff users username s).mpr ⟨u, hu, huname, hdisc⟩
      rw [this] at hfree
      cases hfree
  · exact rollDiscriminator_some_of_free users username draws

/-- Concrete instance of the C3 theorem: with `"0001"` taken, the
draw sequence `[1, 2]` resolves to a fresh discriminator. -/
theorem rollDiscriminator_spec_witness :
    (∀ s, rollDiscriminator [demoAccount] "alice" [1, 2] = some s →
        s.length = 4
        ∧ (∃ d, 1 ≤ d ∧ d ≤ 9999 ∧ s = discrimOf d)
        ∧ taken [demoAccount] "alice" s = false
        ∧ ∀ u ∈ [demoAccount], u.username = "alice" → u.discriminator ≠ s)
    ∧ ((∃ d ∈ [1, 2], taken [demoAccount] "alice" (discrimOf d) = false) →
        ∃ s, rollDiscriminator [demoAccount] "alice" [1, 2] = some s) :=
  rollDiscriminator_spec [demoAccount] "alice" [1, 2] (by decide)

/-- **C4** (code evaluated at the failing scenario): when every
discriminator 1..9999 is already taken for a username, the retry
loop never finishes — it consumes any amount of randomness without
producing a value — so `createUser` never completes, and in
particular never surfaces its `'Cannot generate unique discrim'`
error: the `!discriminator` guard in `createUser` is unreachable. -/
theorem discrim_exhaustion_loops (db : DB) (username : String)
    (hfull : ∀ d, 1 ≤ d → d ≤ 9999 → taken db.users username (discrimOf d) = true)
    (draws : List Nat) (hdraws : ∀ d ∈ draws, 1 ≤ d ∧ d ≤ 9999)
    (hash : String → String) (uid password : String) :
    rollDiscriminator db.users username draws = none
    ∧ createUser hash db uid username password draws = none := by
  have h1 : ∀ ds, (∀ d ∈ ds, 1 ≤ d ∧ d ≤ 9999) →
      rollDiscriminator db.users username ds = none := by
    intro ds
    induction ds with
    | nil => intro _; rfl
    | cons d rest ih =>
      intro hds
      have hd := hds d (List.mem_cons_self d rest)
      rw [rollDiscriminator, if_pos (hfull d hd.1 hd.2)]
      exact ih (fun x hx => hds x (List.mem_cons_of_mem d hx))
  have h2 := h1 draws hdraws
  refine ⟨h2, ?_⟩
  rw [createUser, h2]

/-- In the saturated table, every discriminator 1..9999 is taken. -/
theorem fullUsers_taken : ∀ d, 1 ≤ d → d ≤ 9999 →
    taken fullDB.users "alice" (discrimOf d) = true := by
  have hdb : fullDB.users = fullUsers := by simp only [fullDB]
  intro d h1 h2
  rw [hdb, taken_eq_true_iff]
  have hm : fullUserAt (d - 1) ∈ fullUsers :=
    List.mem_map.mpr ⟨d - 1, List.mem_range.mpr (by omega), rfl⟩
  refine ⟨fullUserAt (d - 1), hm, rfl, ?_⟩
  have he : d - 1 + 1 = d := by omega
  show discrimOf (d - 1 + 1) = discrimOf d
  rw [he]

/-- Concrete instance of the C4 theorem on the saturated table. -/
theorem discrim_exhaustion_loops_witness :
    rollDiscriminator fullDB.users "alice" [1, 2, 3] = none
    ∧ createUser (fun s => s) fullDB "42" "alice" "pw" [1, 2, 3] = none :=
  discrim_exhaustion_loops fullDB "alice" fullUsers_taken [1, 2, 3]
    (by decide) (fun s => s) "42" "pw"

/-- **C2 counterexample**: with a decoded payload
`"alice#0001:pa:ss"` and a stored password `"pa:ss"` that equals the
full text after the first colon (here password verification is
plain string equality), `authenticate` returns `none`, not the
account: the destructured `split(':')` hands `"pa"` — the chunk
between the first and second colons — to the password check. -/
theorem authenticate_colon_counterexample :
    eqVerify "pa:ss" colonAccount.password = true
    ∧ authenticate (fun _ => "alice#0001:pa:ss") eqVerify [colonAccount] "Basic x" = none := by
  decide

/-- **C2 amended**: `authenticate` splits the decoded payload on
every colon and takes only the chunk between the first and second
colons as the password, so for payload `"alice#0001:pa:ss"` the
string handed to password verification is `"pa"`, not `"pa:ss"`; an
account whose stored password contains a colon therefore never
authenticates with the full text after the first colon. -/
theorem authenticate_truncates_password (verify : String → String → Bool)
    (users : List Account) (u : Account)
    (hfind : users.find? (fun a => a.username == "alice" && a.discriminator == "0001") = some u) :
    credsPassword "alice#0001:pa:ss" = some "pa"
    ∧ authenticate (fun _ => "alice#0001:pa:ss") verify users "Basic x" =
        (if verify "pa" u.password then some u else none) := by
  refine ⟨by decide, ?_⟩
  have e4 : credsPassword "alice#0001:pa:ss" = some "pa" := by decide
  have e5 : credsName "alice#0001:pa:ss" = "alice" := by decide
  have e6 : credsDisc "alice#0001:pa:ss" = some "0001" := by decide
  rw [authenticate_unfold, if_neg (by decide), if_neg (by decide)]
  simp only []
  rw [if_neg (by decide)]
  simp only [e4, e5, e6, Option.getD_some]
  rw [hfind]

/-- Concrete instance of the amended C2 theorem. -/
theorem authenticate_truncates_password_witness :
    credsPassword "alice#0001:pa:ss" = some "pa"
    ∧ authenticate (fun _ => "alice#0001:pa:ss") eqVerify [colonAccount] "Basic x" =
        (if eqVerify "pa" colonAccount.password then some colonAccount else none) :=
  authenticate_truncates_password eqVerify [colonAccount] colonAccount (by decide)

/-- Concrete instance of the C1 theorem's account-lookup clause. -/
theorem authenticate_correct_witness :
    authenticate id eqVerify [demoAccount] "Basic alice#0001:secret" =
      match [demoAccount].find? (fun u => u.username == "alice" && u.discriminator == "0001") with
      | none => none
      | some user => if eqVerify "secret" user.password then some user else none :=
  (authenticate_correct id eqVerify [demoAccount] "Basic alice#0001:secret").2.2.2.2
    "alice#0001:secret" "alice" "0001" "secret" (by decide) (by decide) (by decide)
    (by decide) (by decide) (by decide) (by decide) (by decide) (by decide)

/-- `contains` on a list of server ids agrees with membership. -/
theorem contains_iff_mem (l : List Nat) (a : Nat) : l.contains a = true ↔ a ∈ l :=
  List.elem_iff

/-- Looking up a key after a key-preserving update of that key's row
returns the updated row. -/
theorem find?_map_key_update (l : List Account) (key : String) (g : Account → Account)
    (hg : ∀ a, (g a).id = a.id) :
    (l.map (fun a => if a.id == key then g a else a)).find? (fun a => a.id == key)
      = (l.find? (fun a => a.id == key)).map g := by
  induction l with
  | nil => rfl
  | cons a t ih =>
    simp only [List.map_cons]
    by_cases h : (a.id == key) = true
    · have h2 : ((g a).id == key) = true := by rw [hg a]; exact h
      rw [if_pos h]
      simp only [List.find?_cons, h2, h]
      rfl
    · have h' : (a.id == key) = false := by rwa [Bool.not_eq_true] at h
      rw [if_neg h]
      simp only [List.find?_cons, h']
      exact ih

/-- The fold computing `max('id')` only grows its accumulator. -/
theorem le_foldl_max (l : List Server) : ∀ acc : Nat,
    acc ≤ l.foldl (fun m s => max m s.id) acc := by
  induction l with
  | nil => intro acc; exact Nat.le_refl acc
  | cons a t ih =>
    intro acc
    rw [List.foldl_cons]
    exact Nat.le_trans (Nat.le_max_left acc a.id) (ih (max acc a.id))

/-- Every stored server's id is bounded by the table's maximum. -/
theorem id_le_maxServerId (l : List Server) : ∀ s ∈ l, s.id ≤ maxServerId l := by
  unfold maxServerId
  generalize (0 : Nat) = acc
  induction l generalizing acc with
  | nil => intro s hs; cases hs
  | cons a t ih =>
    intro s hs
    rw [List.foldl_cons]
    rcases List.mem_cons.mp hs with h | h
    · rw [h]
      exact Nat.le_trans (Nat.le_max_right acc a.id) (le_foldl_max t (max acc a.id))
    · exact ih (max acc a.id) s h

/-- `addMemberToServer` no-ops when the user row is missing. -/
theorem addMember_no_user (db : DB) (userId : String) (serverId : Nat)
    (h : db.users.find? (fun u => u.id == userId) = none) :
    addMemberToServer db userId serverId = db := by
  simp only [addMemberToServer, h]

/-- `addMemberToServer` no-ops when the server row is missing. -/
theorem addMember_no_server (db : DB) (userId : String) (serverId : Nat)
    (h : db.servers.find? (fun s => s.id == serverId) = none) :
    addMemberToServer db userId serverId = db := by
  cases hu : db.users.find? (fun u => u.id == userId) <;>
    simp only [addMemberToServer, hu, h]

/-- `addMemberToServer` no-ops when the user is already a member. -/
theorem addMember_already (db : DB) (userId : String) (serverId : Nat) (u : Account)
    (hu : db.users.find? (fun u => u.id == userId) = some u)
    (hmem : serverId ∈ u.servers) :
    addMemberToServer db userId serverId = db := by
  cases hsrv : db.servers.find? (fun s => s.id == serverId) <;>
    simp [addMemberToServer, hu, hsrv, hmem]

/-- When the user and server exist and the user is not yet a member,
`addMemberToServer` appends the server id to the user's row. -/
theorem addMember_append (db : DB) (userId : String) (serverId : Nat) (u : Account)
    (hu : db.users.find? (fun u => u.id == userId) = some u)
    (hmem : serverId ∉ u.servers) (srv : Server)
    (hsrv : db.servers.find? (fun s => s.id == serverId) = some srv) :
    addMemberToServer db userId serverId
      = { db with users := db.users.map (fun a =>
          if a.id == userId then { a with servers := a.servers ++ [serverId] } else a) } := by
  have hcf : u.servers.contains serverId = false := by
    rw [← Bool.not_eq_true]
    intro hcc
    exact hmem ((contains_iff_mem u.servers serverId).mp hcc)
  simp only [addMemberToServer, hu, hsrv, hcf, Bool.false_eq_true, if_false]

/-- The row produced by the membership append, as seen by a later
lookup. -/
theorem find?_after_append (db : DB) (userId : String) (serverId : Nat) (u : Account)
    (hu : db.users.find? (fun u => u.id == userId) = some u) :
    (db.users.map (fun a =>
        if a.id == userId then { a with servers := a.servers ++ [serverId] }
        else a)).find? (fun a => a.id == userId)
      = some { u with servers := u.servers ++ [serverId] } := by
  rw [find?_map_key_update db.users userId
    (fun a => { a with servers := a.servers ++ [serverId] }) (fun a => rfl), hu]
  rfl

/-- **C6**: `addMemberToServer` is idempotent: it leaves the
database unchanged when the user or the server is missing or the
user is already a member; otherwise it appends the server id once
(the membership set then counts it exactly once), and running the
operation twice with the same arguments equals running it once. -/
theorem addMemberToServer_idempotent (db : DB) (userId : String) (serverId : Nat) :
    (db.users.find? (fun u => u.id == userId) = none →
        addMemberToServer db userId serverId = db)
    ∧ (db.servers.find? (fun s => s.id == serverId) = none →
        addMemberToServer db userId serverId = db)
    ∧ (∀ u, db.users.find? (fun u => u.id == userId) = some u → serverId ∈ u.servers →
        addMemberToServer db userId serverId = db)
    ∧ (∀ u, db.users.find? (fun u => u.id == userId) = some u → serverId ∉ u.servers →
        db.servers.find? (fun s => s.id == serverId) ≠ none →
        ∃ u', (addMemberToServer db userId serverId).users.find? (fun a => a.id == userId)
            = some u'
          ∧ u'.servers = u.servers ++ [serverId]
          ∧ u'.servers.count serverId = 1)
    ∧ addMemberToServer (addMemberToServer db userId serverId) userId serverId
        = addMemberToServer db userId serverId := by
  refine ⟨?_, ?_, ?_, ?_, ?_⟩
  · exact addMember_no_user db userId serverId
  · exact addMember_no_server db userId serverId
  · intro u hu hmem
    exact addMember_already db userId serverId u hu hmem
  · intro u hu hmem hs
    cases hsrv : db.servers.find? (fun s => s.id == serverId) with
    | none => exact absurd hsrv hs
    | some srv =>
      rw [addMember_append db userId serverId u hu hmem srv hsrv]
      refine ⟨{ u with servers := u.servers ++ [serverId] }, ?_, rfl, ?_⟩
      · exact find?_after_append db userId serverId u hu
      · show (u.servers ++ [serverId]).count serverId = 1
        rw [List.count_append, List.count_eq_zero.mpr hmem]
        simp
  · cases hu : db.users.find? (fun u => u.id == userId) with
    | none =>
      have h1 := addMember_no_user db userId serverId hu
      rw [h1, h1]
    | some u =>
      cases hsrv : db.servers.find? (fun s => s.id == serverId) with
      | none =>
        have h1 := addMember_no_server db userId serverId hsrv
        rw [h1, h1]
      | some srv =>
        by_cases hc : serverId ∈ u.servers
        · have h1 := addMember_already db userId serverId u hu hc
          rw [h1, h1]
        · have h1 := addMember_append db userId serverId u hu hc srv hsrv
          rw [h1]
          exact addMember_already _ userId serverId
            { u with servers := u.servers ++ [serverId] }
            (find?_after_append db userId serverId u hu)
            (List.mem_append.mpr (Or.inr (List.mem_singleton.mpr rfl)))

/-- Concrete instance of the C6 theorem. -/
theorem addMemberToServer_idempotent_witness :
    (demoDB.users.find? (fun u => u.id == "1") = none →
        addMemberToServer demoDB "1" 1 = demoDB)
    ∧ (demoDB.servers.find? (fun s => s.id == 1) = none →
        addMemberToServer demoDB "1" 1 = demoDB)
    ∧ (∀ u, demoDB.users.find? (fun u => u.id == "1") = some u →
        1 ∈ u.servers → addMemberToServer demoDB "1" 1 = demoDB)
    ∧ (∀ u, demoDB.users.find? (fun u => u.id == "1") = some u →
        1 ∉ u.servers → demoDB.servers.find? (fun s => s.id == 1) ≠ none →
        ∃ u', (addMemberToServer demoDB "1" 1).users.find? (fun a => a.id == "1") = some u'
          ∧ u'.servers = u.servers ++ [1]
          ∧ u'.servers.count 1 = 1)
    ∧ addMemberToServer (addMemberToServer demoDB "1" 1) "1" 1
        = addMemberToServer demoDB "1" 1 :=
  addMemberToServer_idempotent demoDB "1" 1

/-- Looking up a freshly appended server by its id finds it, as long
as no existing server carries that id. -/
theorem find?_fresh_server (servers : List Server) (srv : Server) (n : Nat)
    (hid : srv.id = n) (hfresh : ∀ s ∈ servers, s.id ≠ n) :
    (servers ++ [srv]).find? (fun s => s.id == n) = some srv := by
  rw [List.find?_append]
  have h1 : servers.find? (fun s => s.id == n) = none :=
    List.find?_eq_none.mpr (fun s hs => by simp [hfresh s hs])
  rw [h1, Option.none_or]
  simp [List.find?_cons, hid]

/-- Joining an existing user to an existing server always leaves the
user a member, whether or not they already were one, and never
touches the servers table. -/
theorem addMember_ensures (db : DB) (userId : String) (serverId : Nat) (u : Account)
    (hu : db.users.find? (fun a => a.id == userId) = some u) (srv : Server)
    (hsrv : db.servers.find? (fun s => s.id == serverId) = some srv) :
    ∃ u', (addMemberToServer db userId serverId).users.find? (fun a => a.id == userId)
        = some u'
      ∧ serverId ∈ u'.servers
      ∧ u'.id = u.id
      ∧ (addMemberToServer db userId serverId).servers = db.servers := by
  by_cases hmem : serverId ∈ u.servers
  · rw [addMember_already db userId serverId u hu hmem]
    exact ⟨u, hu, hmem, rfl, rfl⟩
  · rw [addMember_append db userId serverId u hu hmem srv hsrv]
    exact ⟨{ u with servers := u.servers ++ [serverId] },
      find?_after_append db userId serverId u hu,
      List.mem_append.mpr (Or.inr (List.mem_singleton.mpr rfl)), rfl, rfl⟩

/-- **C5**: for a server created by an existing owner, `createServer`
assigns id (current maximum server id) + 1 — in particular id 1 on an
empty servers table instead of erroring — inserts the record, adds
the owner as a member before returning, and the returned joined
server carries the new id and lists the owner among its members,
while the server id lands in the owner's membership set. -/
theorem createServer_spec (db : DB) (name : String) (iconUrl : Option String)
    (owner : String) (u : Account)
    (hu : db.users.find? (fun a => a.id == owner) = some u) :
    (db.servers = [] → maxServerId db.servers + 1 = 1)
    ∧ (createServer db name iconUrl owner).1.servers
        = db.servers ++ [{ id := maxServerId db.servers + 1, name := name, iconUrl := iconUrl, owner := owner }]
    ∧ ∃ js, (createServer db name iconUrl owner).2 = some js
        ∧ js.id = maxServerId db.servers + 1
        ∧ js.owner = owner
        ∧ (∃ m ∈ js.members, m.id = owner)
        ∧ ∃ u', (createServer db name iconUrl owner).1.users.find? (fun a => a.id == owner)
            = some u' ∧ (maxServerId db.servers + 1) ∈ u'.servers := by
  have hfresh : ∀ s ∈ db.servers, s.id ≠ maxServerId db.servers + 1 := fun s hs =>
    Nat.ne_of_lt (Nat.lt_succ_of_le (id_le_maxServerId db.servers s hs))
  have hs1 : List.find? (fun s => s.id == maxServerId db.servers + 1)
      (db.servers ++ [{ id := maxServerId db.servers + 1, name := name, iconUrl := iconUrl, owner := owner }])
      = some { id := maxServerId db.servers + 1, name := name, iconUrl := iconUrl, owner := owner } :=
    find?_fresh_server db.servers _ (maxServerId db.servers + 1) rfl hfresh
  obtain ⟨u', hfind, hmem', hid', hsrv'⟩ := addMember_ensures
    { db with servers := db.servers ++ [{ id := maxServerId db.servers + 1, name := name, iconUrl := iconUrl, owner := owner }] }
    owner (maxServerId db.servers + 1) u hu _ hs1
  have hpred := List.find?_some hu
  have huid : u.id = owner := beq_iff_eq.mp hpred
  refine ⟨?_, ?_, ?_⟩
  · intro h
    rw [h]
    rfl
  · show (addMemberToServer _ owner (maxServerId db.servers + 1)).servers = _
    rw [hsrv']
  · show ∃ js, getServer (addMemberToServer _ owner (maxServerId db.servers + 1))
        (maxServerId db.servers + 1) = some js ∧ _
    unfold getServer
    rw [hsrv', hs1]
    refine ⟨_, rfl, rfl, rfl, ?_, u', hfind, hmem'⟩
    refine ⟨withoutPrivate u', List.mem_map.mpr ⟨u', ?_, rfl⟩, ?_⟩
    · refine List.mem_filter.mpr ⟨List.mem_of_find?_eq_some hfind, ?_⟩
      exact (contains_iff_mem u'.servers (maxServerId db.servers + 1)).mpr hmem'
    · show u'.id = owner
      rw [hid', huid]

/-- Concrete instance of the C5 theorem. -/
theorem createServer_spec_witness :
    (demoDB.servers = [] → maxServerId demoDB.servers + 1 = 1)
    ∧ (createServer demoDB "Guild" none "1").1.servers
        = demoDB.servers ++ [{ id := maxServerId demoDB.servers + 1, name := "Guild", iconUrl := none, owner := "1" }]
    ∧ ∃ js, (createServer demoDB "Guild" none "1").2 = some js
        ∧ js.id = maxServerId demoDB.servers + 1
        ∧ js.owner = "1"
        ∧ (∃ m ∈ js.members, m.id = "1")
        ∧ ∃ u', (createServer demoDB "Guild" none "1").1.users.find? (fun a => a.id == "1")
            = some u' ∧ (maxServerId demoDB.servers + 1) ∈ u'.servers :=
  createServer_spec demoDB "Guild" none "1" demoAccount (by decide)

/-- **C10**: when the owner id is absent from the users table,
`createServer` still inserts the record and returns the joined
server — the membership join silently no-ops — and (in any state
whose membership sets only reference existing servers) the returned
member list is empty, so the owner-must-be-a-member invariant fails
for that server. -/
theorem createServer_missing_owner (db : DB) (name : String) (iconUrl : Option String)
    (owner : String)
    (howner : db.users.find? (fun a => a.id == owner) = none)
    (hwf : ∀ u ∈ db.users, ∀ sid ∈ u.servers, ∃ s ∈ db.servers, s.id = sid) :
    (createServer db name iconUrl owner).1.servers
      = db.servers ++ [{ id := maxServerId db.servers + 1, name := name, iconUrl := iconUrl, owner := owner }]
    ∧ (createServer db name iconUrl owner).1.users = db.users
    ∧ ∃ js, (createServer db name iconUrl owner).2 = some js
        ∧ js.members = []
        ∧ ¬ ∃ m ∈ js.members, m.id = owner := by
  have hnoop : addMemberToServer
      { db with servers := db.servers ++ [{ id := maxServerId db.servers + 1, name := name, iconUrl := iconUrl, owner := owner }] }
      owner (maxServerId db.servers + 1)
      = { db with servers := db.servers ++ [{ id := maxServerId db.servers + 1, name := name, iconUrl := iconUrl, owner := owner }] } :=
    addMember_no_user _ owner (maxServerId db.servers + 1) howner
  have hs1 : List.find? (fun s => s.id == maxServerId db.servers + 1)
      (db.servers ++ [{ id := maxServerId db.servers + 1, name := name, iconUrl := iconUrl, owner := owner }])
      = some { id := maxServerId db.servers + 1, name := name, iconUrl := iconUrl, owner := owner } :=
    find?_fresh_server db.servers _ (maxServerId db.servers + 1) rfl
      (fun s hs => Nat.ne_of_lt (Nat.lt_succ_of_le (id_le_maxServerId db.servers s hs)))
  have hempty : db.users.filter
      (fun v => v.servers.contains (maxServerId db.servers + 1)) = [] := by
    rw [List.filter_eq_nil_iff]
    intro v hv hcont
    obtain ⟨s, hs, hsid⟩ := hwf v hv (maxServerId db.servers + 1)
      ((contains_iff_mem v.servers (maxServerId db.servers + 1)).mp hcont)
    have := id_le_maxServerId db.servers s hs
    omega
  refine ⟨?_, ?_, ?_⟩
  · show (addMemberToServer _ owner (maxServerId db.servers + 1)).servers = _
    rw [hnoop]
  · show (addMemberToServer _ owner (maxServerId db.servers + 1)).users = _
    rw [hnoop]
  · show ∃ js, getServer (addMemberToServer _ owner (maxServerId db.servers + 1))
        (maxServerId db.servers + 1) = some js ∧ _
    rw [hnoop]
    unfold getServer
    rw [hs1]
    refine ⟨_, rfl, ?_, ?_⟩
    · show (db.users.filter _).map withoutPrivate = []
      rw [hempty]
      rfl
    · show ¬ ∃ m ∈ (db.users.filter _).map withoutPrivate, m.id = owner
      rw [hempty]
      rintro ⟨m, hm, _⟩
      cases hm

/-- Concrete instance of the C10 theorem: owner `"9"` does not
exist, yet the server is created with an empty member list. -/
theorem createServer_missing_owner_witness :
    (createServer demoDB "Ghost" none "9").1.servers
      = demoDB.servers ++ [{ id := maxServerId demoDB.servers + 1, name := "Ghost", iconUrl := none, owner := "9" }]
    ∧ (createServer demoDB "Ghost" none "9").1.users = demoDB.users
    ∧ ∃ js, (createServer demoDB "Ghost" none "9").2 = some js
        ∧ js.members = []
        ∧ ¬ ∃ m ∈ js.members, m.id = "9" :=
  createServer_missing_owner demoDB "Ghost" none "9" (by decide) (by decide)

/-- **C7**: `deleteServer` removes the server row, every invite
referencing the id, and the id from every account's membership set
(each account keeping its remaining memberships); afterwards no
server row, no invite and no membership set mentions the deleted
id. -/
theorem deleteServer_spec (db : DB) (serverId : Nat) :
    ((deleteServer db serverId).servers.find? (fun s => s.id == serverId) = none)
    ∧ (∀ inv ∈ (deleteServer db serverId).invites, inv.serverId ≠ serverId)
    ∧ (∀ u ∈ (deleteServer db serverId).users, serverId ∉ u.servers)
    ∧ (deleteServer db serverId).users
        = db.users.map (fun u => { u with servers := u.servers.filter (fun m => m != serverId) })
    ∧ (deleteServer db serverId).servers = db.servers.filter (fun s => s.id != serverId)
    ∧ (deleteServer db serverId).invites
        = db.invites.filter (fun inv => inv.serverId != serverId) := by
  have husers : (deleteServer db serverId).users
      = db.users.map (fun u => { u with servers := u.servers.filter (fun m => m != serverId) }) := by
    show db.users.map _ = _
    apply List.map_congr_left
    intro u _
    by_cases hc : u.servers.contains serverId = true
    · rw [if_pos hc]
    · rw [if_neg hc]
      have hni : serverId ∉ u.servers := fun hm => hc ((contains_iff_mem _ _).mpr hm)
      have hf : u.servers.filter (fun m => m != serverId) = u.servers :=
        List.filter_eq_self.mpr (fun x hx => bne_iff_ne.mpr (fun he => hni (he ▸ hx)))
      rw [hf]
  refine ⟨?_, ?_, ?_, husers, rfl, rfl⟩
  · apply List.find?_eq_none.mpr
    intro s hs hbeq
    have hm := List.mem_filter.mp hs
    exact (bne_iff_ne.mp hm.2) (beq_iff_eq.mp hbeq)
  · intro inv hinv
    exact bne_iff_ne.mp (List.mem_filter.mp hinv).2
  · intro u' hu'
    rw [husers] at hu'
    obtain ⟨u0, _, rfl⟩ := List.mem_map.mp hu'
    intro hmem
    have h2 := (List.mem_filter.mp hmem).2
    simp at h2

/-- Field-by-field effect of the partial update object. -/
theorem applyUserUpdate_char (hash : String → String) (username d : String)
    (password : Option String) (avatarUrl : Option (Option String)) (admin : Option Bool)
    (u : Account) :
    (applyUserUpdate hash username d password avatarUrl admin u).id = u.id
    ∧ (applyUserUpdate hash username d password avatarUrl admin u).servers = u.servers
    ∧ (applyUserUpdate hash username d password avatarUrl admin u).online = u.online
    ∧ (applyUserUpdate hash username d password avatarUrl admin u).username = username
    ∧ (applyUserUpdate hash username d password avatarUrl admin u).discriminator = d
    ∧ (applyUserUpdate hash username d password avatarUrl admin u).password
        = (match password with
            | some p => if p != "" then hash p else u.password
            | none => u.password)
    ∧ (applyUserUpdate hash username d password avatarUrl admin u).avatarUrl
        = (match avatarUrl with | some a => a | none => u.avatarUrl)
    ∧ (applyUserUpdate hash username d password avatarUrl admin u).admin
        = (match admin with | some b => some b | none => u.admin) := by
  unfold applyUserUpdate
  rcases password with _ | p <;> rcases avatarUrl with _ | a <;> rcases admin with _ | b <;>
    first
      | exact ⟨rfl, rfl, rfl, rfl, rfl, rfl, rfl, rfl⟩
      | (by_cases hp : (p != "") = true <;> simp [applyUserUpdate, hp])

/-- The partial update never touches the row's primary key. -/
theorem applyUserUpdate_id (hash : String → String) (username d : String)
    (password : Option String) (avatarUrl : Option (Option String)) (admin : Option Bool)
    (u : Account) :
    (applyUserUpdate hash username d password avatarUrl admin u).id = u.id :=
  (applyUserUpdate_char hash username d password avatarUrl admin u).1

/-- **C8**: whenever the fresh discriminator roll for the requested
username completes, `updateUser` returns the recomputed tag
`username#newDiscriminator` with a discriminator no existing account
with that username holds (even when the username is unchanged); on
the updated row the password hash is replaced only when a JS-truthy
password was supplied, `avatarUrl` is written only when explicitly
present (`some none` — an explicit null — unsets it, omission leaves
it untouched), the admin flag is written only when strictly boolean,
and the remaining fields (id, servers, online — and each omitted
optional field) keep their previous values. -/
theorem updateUser_spec (hash : String → String) (db : DB) (uid username : String)
    (password : Option String) (avatarUrl : Option (Option String)) (admin : Option Bool)
    (draws : List Nat) (d : String)
    (hroll : rollDiscriminator db.users username draws = some d)
    (u : Account) (hu : db.users.find? (fun a => a.id == uid) = some u) :
    ∃ db', updateUser hash db uid username password avatarUrl admin draws
        = some (db', username ++ "#" ++ d)
      ∧ taken db.users username d = false
      ∧ ∃ u', db'.users.find? (fun a => a.id == uid) = some u'
          ∧ u'.username = username
          ∧ u'.discriminator = d
          ∧ (password = none ∨ password = some "" → u'.password = u.password)
          ∧ (∀ p, password = some p → p ≠ "" → u'.password = hash p)
          ∧ (avatarUrl = none → u'.avatarUrl = u.avatarUrl)
          ∧ (∀ a, avatarUrl = some a → u'.avatarUrl = a)
          ∧ (admin = none → u'.admin = u.admin)
          ∧ (∀ b, admin = some b → u'.admin = some b)
          ∧ u'.id = u.id ∧ u'.servers = u.servers ∧ u'.online = u.online := by
  have hfree : taken db.users username d = false :=
    (rollDiscriminator_some db.users username draws d hroll).2
  obtain ⟨hid, hsrv, hon, hun, hdis, hpw, hav, had⟩ :=
    applyUserUpdate_char hash username d password avatarUrl admin u
  have hfind : (db.users.map (fun v =>
      if v.id == uid then applyUserUpdate hash username d password avatarUrl admin v
      else v)).find? (fun a => a.id == uid)
      = some (applyUserUpdate hash username d password avatarUrl admin u) := by
    rw [find?_map_key_update db.users uid
      (applyUserUpdate hash username d password avatarUrl admin)
      (applyUserUpdate_id hash username d password avatarUrl admin), hu]
    rfl
  refine ⟨{ db with users := db.users.map (fun v =>
      if v.id == uid then applyUserUpdate hash username d password avatarUrl admin v
      else v) }, ?_, hfree,
    applyUserUpdate hash username d password avatarUrl admin u, hfind,
    hun, hdis, ?_, ?_, ?_, ?_, ?_, ?_, hid, hsrv, hon⟩
  · simp only [updateUser, hroll]
  · rintro (h | h) <;> subst h <;> exact hpw
  · intro p hp hne
    subst hp
    rw [hpw]
    show (if (p != "") = true then hash p else u.password) = hash p
    rw [if_pos (bne_iff_ne.mpr hne)]
  · intro h
    subst h
    exact hav
  · intro a ha
    subst ha
    exact hav
  · intro h
    subst h
    exact had
  · intro b hb
    subst hb
    exact had

/-- Concrete instance of the C8 theorem. -/
theorem updateUser_spec_witness :
    ∃ db', updateUser (fun s => s ++ "h") demoDB "1" "alice" (some "newpw")
        (some (some "http://a")) (some true) [2]
        = some (db', "alice" ++ "#" ++ "0002")
      ∧ taken demoDB.users "alice" "0002" = false
      ∧ ∃ u', db'.users.find? (fun a => a.id == "1") = some u'
          ∧ u'.username = "alice"
          ∧ u'.discriminator = "0002"
          ∧ (some "newpw" = none ∨ some "newpw" = some "" → u'.password = demoAccount.password)
          ∧ (∀ p, some "newpw" = some p → p ≠ "" → u'.password = (fun s => s ++ "h") p)
          ∧ (some (some "http://a") = none → u'.avatarUrl = demoAccount.avatarUrl)
          ∧ (∀ a, some (some "http://a") = some a → u'.avatarUrl = a)
          ∧ ((some true : Option Bool) = none → u'.admin = demoAccount.admin)
          ∧ (∀ b, (some true : Option Bool) = some b → u'.admin = some b)
          ∧ u'.id = demoAccount.id ∧ u'.servers = demoAccount.servers
          ∧ u'.online = demoAccount.online :=
  updateUser_spec (fun s => s ++ "h") demoDB "1" "alice" (some "newpw")
    (some (some "http://a")) (some true) [2] "0002" (by decide) demoAccount (by decide)

/-- **C9**: creating an invite stores exactly the given server id
and inviter under the returned code: resolving that code afterwards
yields the invite with those fields, while resolving a code that was
never created — before the creation, or any other absent code after
it — returns `none`. -/
theorem invite_roundtrip (db : DB) (code : String) (serverId : Nat) (inviter : String)
    (hfresh : ∀ inv ∈ db.invites, inv.id ≠ code) :
    (generateInvite db code serverId inviter).2 = code
    ∧ getInvite db code = none
    ∧ getInvite (generateInvite db code serverId inviter).1 code
        = some { id := code, serverId := serverId, inviter := inviter }
    ∧ ∀ c, c ≠ code → (∀ inv ∈ db.invites, inv.id ≠ c) →
        getInvite (generateInvite db code serverId inviter).1 c = none := by
  have hnone : db.invites.find? (fun inv => inv.id == code) = none :=
    List.find?_eq_none.mpr (fun inv hi hbeq => hfresh inv hi (beq_iff_eq.mp hbeq))
  refine ⟨rfl, hnone, ?_, ?_⟩
  · show (db.invites ++ ([{ id := code, serverId := serverId, inviter := inviter }]
        : List Invite)).find? (fun inv => inv.id == code)
      = some { id := code, serverId := serverId, inviter := inviter }
    rw [List.find?_append, hnone, Option.none_or]
    simp [List.find?_cons]
  · intro c hc hcf
    show (db.invites ++ ([{ id := code, serverId := serverId, inviter := inviter }]
        : List Invite)).find? (fun inv => inv.id == c) = none
    apply List.find?_eq_none.mpr
    intro inv hi hbeq
    rcases List.mem_append.mp hi with h | h
    · exact hcf inv h (beq_iff_eq.mp hbeq)
    · rw [List.mem_singleton.mp h] at hbeq
      exact hc (beq_iff_eq.mp hbeq).symm

/-- Concrete instance of the C9 theorem. -/
theorem invite_roundtrip_witness :
    (generateInvite demoDB "c0de" 1 "1").2 = "c0de"
    ∧ getInvite demoDB "c0de" = none
    ∧ getInvite (generateInvite demoDB "c0de" 1 "1").1 "c0de"
        = some { id := "c0de", serverId := 1, inviter := "1" }
    ∧ ∀ c, c ≠ "c0de" → (∀ inv ∈ demoDB.invites, inv.id ≠ c) →
        getInvite (generateInvite demoDB "c0de" 1 "1").1 c = none :=
  invite_roundtrip demoDB "c0de" 1 "1" (by decide)
